import Mathlib

/-!
OpencvToolLib: the three revisions of `myFindContours`

A shallow embedding of `Myopencv/FindContours/{v1,v2,v3}/mytool.h`.

The three headers wrap the legacy call `cvFindContours` and marshal the forest it leaves in a
`CvMemStorage` into `vector<vector<cv::Point>>` and `vector<cv::Vec4i>`.  The legacy library is
not part of the repository, so what it returns is an input of the model:

* pointers are addresses (`Nat`), a null pointer is `none`;
* `Forest.seq a` is the `CvSeq` part of the node at address `a`, `Forest.color a` is the
  `CvContour::color` field of that node (the only field the adapter ever writes);
* `Forest.all_contours` is the sequence of node pointers `cvTreeToNodeSeq` builds;
* reads that go through a reinterpreted pointer are not determined by the forest but by the
  bytes that happen to lie there; they are inputs too (`Forest.elem_color`, `Forest.slot`).

Sizes are assumed to fit the C++ `int` computations on them (`count * 2`,
`static_cast<int>(total)`), so indices and counts are natural numbers.
-/

namespace OpencvToolLib

/-! ## Data model -/

/-- Integer point `cv::Point` / `CvPoint`. -/
structure Point where
  x : Int
  y : Int
deriving DecidableEq, Repr

/-- Four signed integers `cv::Vec4i`; the adapter fills them with
`(h_next, h_prev, v_next, v_prev)`. -/
structure Vec4i where
  e0 : Int
  e1 : Int
  e2 : Int
  e3 : Int
deriving DecidableEq, Repr

instance : Inhabited Vec4i := ⟨⟨0, 0, 0, 0⟩⟩

/-- Sample format code of `CV_8UC1`. -/
def CV_8UC1 : Int := 0

/-- Sample format code of `CV_8UC3`. -/
def CV_8UC3 : Int := 16

/-- The part of `cv::Mat` the adapter looks at: `rows`, `cols`, `type()`, and the data pointer
(`none` is a null pointer, otherwise the samples). -/
structure Mat where
  rows : Int
  cols : Int
  type : Int
  data : Option (List Nat)
deriving DecidableEq, Repr

/-- Emptiness test `cv::Mat::empty()`: null data or no element. -/
def Mat.empty (m : Mat) : Bool :=
  m.data.isNone || m.rows * m.cols == 0

/-- Deep copy `cv::Mat::clone()`. -/
def Mat.clone (m : Mat) : Mat := m

/-- The `CvSeq` header of a node together with its elements.  `total` is the element count. -/
structure CvSeq where
  elems : List Point
  h_prev : Option Nat
  h_next : Option Nat
  v_prev : Option Nat
  v_next : Option Nat

/-- The field `CvSeq::total`. -/
def CvSeq.total (c : CvSeq) : Int := c.elems.length

/-- What `cvFindContours` followed by `cvTreeToNodeSeq` leaves behind.

* `seq a`, `color a`: the node at address `a` (`CvSeq` part, `CvContour::color`);
* `all_contours`: the node pointers in the order `cvTreeToNodeSeq` lists them;
* `elem_color a`: the `int` that `CV_GET_SEQ_ELEM(CvContour, p, 0)->color` reads for the node
  `p` at address `a`, that is the bytes at the offset of `color` counted from the first
  *element* of the sequence (v2);
* `slot i`: the bytes at the address of the `i`-th element of the pointer sequence, read
  through a `CvSeq` header (v3 casts `cvGetSeqElem(seq, i)`, the address of the `i`-th stored
  pointer, to `CvSeq*` without dereferencing it). -/
structure Forest where
  seq : Nat → CvSeq
  color : Nat → Int
  all_contours : List Nat
  elem_color : Nat → Int
  slot : Nat → CvSeq

/-- Errors the call can leave with (a thrown `cv::Exception`). -/
inductive CvError where
  | StsBadArg
  | capability (code : Int)
deriving DecidableEq, Repr

/-- Result of the external `cvFindContours`: it throws, it leaves the first-contour pointer
null, or it leaves a forest. -/
inductive TraceResult where
  | failure (code : Int)
  | nothing
  | found (f : Forest)

/-- Number of nodes of the flattened forest, `0` when nothing was found. -/
def TraceResult.nodeCount : TraceResult → Nat
  | .found f => f.all_contours.length
  | _ => 0

/-- The external tracing capability `cvFindContours(image, storage, &first, sizeof(CvContour),
retr, method, offset)`. -/
abbrev Tracer := Mat → Int → Int → Point → TraceResult

/-- How a call of `myFindContours` ends: it returns with the two output vectors, or it throws. -/
inductive Outcome where
  | returned (contours : List (List Point)) (hierarchy : List Vec4i)
  | thrown (e : CvError)
deriving DecidableEq, Repr

/-- Member `std::vector::resize(n)`: keep the first `n` elements, pad with value-initialised
ones. -/
def resize {α : Type} (n : Nat) (v : List α) (d : α) : List α :=
  v.take n ++ List.replicate (n - v.length) d

/-- Member `std::vector::clear()`. -/
@[simp]
def clear {α : Type} (_v : List α) : List α := []

/-- Link lookup `p ? ((CvContour*)p)->color : -1`. -/
def linkColor (color : Nat → Int) (p : Option Nat) : Int :=
  match p with
  | some a => color a
  | none => -1

/-! ## v1: sequential -/

/-- Call `cvCvtSeqToArray(c, data, CV_WHOLE_SEQ)` into an `int` buffer: `x0, y0, x1, y1, ...`. -/
def cvCvtSeqToArray_int (c : CvSeq) : List Int :=
  c.elems.flatMap (fun p => [p.x, p.y])

/-- Inner loop of v1: `for (j = 0; j < count; ++j) v.push_back(Point(data[2j], data[2j+1]))`. -/
def pushPoints (data : List Int) (count : Nat) (v : List Point) : List Point :=
  (List.range count).foldl
    (fun acc j => acc ++ [⟨data.getD (j * 2) 0, data.getD (j * 2 + 1) 0⟩]) v

/-- First loop of v1 (lines 73-90), started at index `i` with the iterator at `it`: writes
`color = i` into the node and copies its points to `contours[i]`. -/
def copyLoop_v1 (f : Forest) :
    List Nat → Nat → (Nat → Int) × List (List Point) → (Nat → Int) × List (List Point)
  | [], _, st => st
  | c :: it, i, (color, contours) =>
    let color1 := Function.update color c (i : Int)
    let count := (f.seq c).total
    let contours1 :=
      if count > 0 then
        contours.set i (pushPoints (cvCvtSeqToArray_int (f.seq c)) count.toNat (contours.getD i []))
      else contours
    copyLoop_v1 f it (i + 1) (color1, contours1)

/-- Second loop of v1 (lines 92-102): the four links, resolved through `color`. -/
def hierarchyLoop_v1 (f : Forest) (color : Nat → Int) :
    List Nat → Nat → List Vec4i → List Vec4i
  | [], _, hierarchy => hierarchy
  | c :: it, i, hierarchy =>
    let h_next := linkColor color (f.seq c).h_next
    let h_prev := linkColor color (f.seq c).h_prev
    let v_next := linkColor color (f.seq c).v_next
    let v_prev := linkColor color (f.seq c).v_prev
    hierarchyLoop_v1 f color it (i + 1) (hierarchy.set i ⟨h_next, h_prev, v_next, v_prev⟩)

/-- Revision 1 of `myFindContours` (`v1/mytool.h`).  `contours0`, `hierarchy0` are the contents
of the output vectors on entry. -/
def myFindContours_v1 (cvFindContours : Tracer) (src : Mat)
    (contours0 : List (List Point)) (hierarchy0 : List Vec4i)
    (retr method : Int) (offset : Point) : Outcome :=
  let contours := clear contours0
  let hierarchy := clear hierarchy0
  match cvFindContours src.clone retr method offset with
  | .failure code => .thrown (.capability code)
  | .nothing => .returned (clear contours) (clear hierarchy)
  | .found f =>
    let total := f.all_contours.length
    let contours := resize total contours []
    let hierarchy := resize total hierarchy default
    let st := copyLoop_v1 f f.all_contours 0 (f.color, contours)
    .returned st.2 (hierarchyLoop_v1 f st.1 f.all_contours 0 hierarchy)

/-! ## v2: `cv::parallel_for_` -/

/-- Half-open index range `cv::Range`. -/
structure Range where
  start : Nat
  end_ : Nat
deriving DecidableEq, Repr

/-- The indices `for (idx = range.start; idx < range.end; ++idx)` visits. -/
def Range.indices (r : Range) : List Nat :=
  (List.range (r.end_ - r.start)).map (fun k => r.start + k)

/-- Call `cv::parallel_for_(whole, body)`: the library cuts the whole range into stripes and runs
the body on each of them; `stripes` is the list of stripes in the order their effects land. -/
def parallel_for_ {σ : Type} (stripes : List Range) (body : Range → σ → σ) (s : σ) : σ :=
  stripes.foldl (fun acc r => body r acc) s

/-- A split of `[0, total)`: every index is visited by exactly one stripe. -/
def IsSplit (total : Nat) (stripes : List Range) : Prop :=
  (stripes.flatMap Range.indices).Perm (List.range total)

instance (total : Nat) (stripes : List Range) : Decidable (IsSplit total stripes) := by
  unfold IsSplit; infer_instance

/-- Call `cvCvtSeqToArray(c, v.data(), CV_WHOLE_SEQ)` into a point buffer: the elements of `c`
overwrite the front of `v`. -/
def cvCvtSeqToArray (c : CvSeq) (v : List Point) : List Point :=
  c.elems ++ v.drop c.elems.length

/-- One iteration of the first `parallel_for_` body of v2 (lines 89-95). -/
def copyStep_v2 (f : Forest) (contours : List (List Point)) (idx : Nat) : List (List Point) :=
  let c := f.seq (f.all_contours.getD idx 0)
  let count := c.total
  if count ≤ 0 then contours
  else contours.set idx (cvCvtSeqToArray c (resize count.toNat (contours.getD idx []) ⟨0, 0⟩))

/-- Body of the first `parallel_for_` of v2 (lines 88-96). -/
def copyBody_v2 (f : Forest) (range : Range) (contours : List (List Point)) :
    List (List Point) :=
  range.indices.foldl (copyStep_v2 f) contours

/-- One iteration of the second `parallel_for_` body of v2 (lines 102-108): the links are
resolved through `CV_GET_SEQ_ELEM(CvContour, link, 0)->color`. -/
def hierarchyStep_v2 (f : Forest) (hierarchy : List Vec4i) (idx : Nat) : List Vec4i :=
  let c := f.seq (f.all_contours.getD idx 0)
  hierarchy.set idx
    ⟨linkColor f.elem_color c.h_next, linkColor f.elem_color c.h_prev,
     linkColor f.elem_color c.v_next, linkColor f.elem_color c.v_prev⟩

/-- Body of the second `parallel_for_` of v2 (lines 100-110). -/
def hierarchyBody_v2 (f : Forest) (range : Range) (hierarchy : List Vec4i) : List Vec4i :=
  range.indices.foldl (hierarchyStep_v2 f) hierarchy

/-- Revision 2 of `myFindContours` (`v2/mytool.h`).  `stripes1`, `stripes2` are the splits the
two `parallel_for_` calls use. -/
def myFindContours_v2 (cvFindContours : Tracer) (stripes1 stripes2 : List Range) (src : Mat)
    (contours0 : List (List Point)) (hierarchy0 : List Vec4i)
    (retr method : Int) (offset : Point) : Outcome :=
  if src.empty then .returned (clear contours0) (clear hierarchy0)
  else if src.type ≠ CV_8UC1 then .thrown .StsBadArg
  else
    let contours := clear contours0
    let hierarchy := clear hierarchy0
    match cvFindContours src.clone retr method offset with
    | .failure code => .thrown (.capability code)
    | .nothing => .returned contours hierarchy
    | .found f =>
      let total := f.all_contours.length
      let contours := resize total contours []
      let hierarchy := resize total hierarchy default
      .returned (parallel_for_ stripes1 (copyBody_v2 f) contours)
        (parallel_for_ stripes2 (hierarchyBody_v2 f) hierarchy)

/-! ## v3: OpenMP with an adapted thread count -/

/-- The process-global OpenMP setting read by `omp_get_max_threads` and written by
`omp_set_num_threads`. -/
structure OmpState where
  nthreads : Int
deriving DecidableEq, Repr

/-- Runtime call `omp_get_max_threads()`. -/
def omp_get_max_threads (s : OmpState) : Int := s.nthreads

/-- Runtime call `omp_set_num_threads(n)`. -/
def omp_set_num_threads (n : Int) (_s : OmpState) : OmpState := ⟨n⟩

/-- The local guard `struct OMPGuard` of v3. -/
structure OMPGuard where
  original : Int

/-- Constructor `OMPGuard() : original(omp_get_max_threads())`. -/
def OMPGuard.create (s : OmpState) : OMPGuard := ⟨omp_get_max_threads s⟩

/-- Destructor `~OMPGuard() { omp_set_num_threads(original); }`. -/
def OMPGuard.destroy (g : OMPGuard) (s : OmpState) : OmpState :=
  omp_set_num_threads g.original s

/-- Two's-complement reduction to `int64_t`. -/
def wrapInt64 (z : Int) : Int := (z + 2 ^ 63) % 2 ^ 64 - 2 ^ 63

/-- Lines 61-71 of v3: the thread count chosen from the pixel count, given the value
`omp_get_max_threads()` returns. -/
def optimal_threads (src : Mat) (max_threads : Int) : Int :=
  let pixel_count := wrapInt64 (src.rows * src.cols)
  let small_threshold : Int := 512 * 512
  let medium_threshold : Int := 2048 * 2048
  if pixel_count < small_threshold then 1
  else if pixel_count < medium_threshold then max 2 (Int.tdiv max_threads 2)
  else max_threads

/-- One iteration of the OpenMP loop of v3 (lines 130-144).  `contour` is the reinterpreted
address of the `i`-th slot of the pointer sequence, hence `f.slot i`. -/
def loopBody_v3 (f : Forest) (st : List (List Point) × List Vec4i) (i : Nat) :
    List (List Point) × List Vec4i :=
  let contour := f.slot i
  let count := contour.total
  let contours :=
    if count > 0 then
      st.1.set i (cvCvtSeqToArray contour (resize count.toNat (st.1.getD i []) ⟨0, 0⟩))
    else st.1
  (contours,
   st.2.set i
    ⟨linkColor f.color contour.h_next, linkColor f.color contour.h_prev,
     linkColor f.color contour.v_next, linkColor f.color contour.v_prev⟩)

/-- An order in which `#pragma omp parallel for schedule(dynamic)` may run the iterations
`0 .. total-1`: each of them once. -/
def IsOrder (total : Nat) (order : List Nat) : Prop :=
  order.Perm (List.range total)

instance (total : Nat) (order : List Nat) : Decidable (IsOrder total order) := by
  unfold IsOrder; infer_instance

/-- Lines 60-145 of v3: everything that runs while the guard is alive.  Returns the outcome and
the OpenMP setting at the moment the scope is left. -/
def scope_v3 (cvFindContours : Tracer) (order : List Nat) (src : Mat)
    (contours0 : List (List Point)) (hierarchy0 : List Vec4i)
    (retr method : Int) (offset : Point) (omp : OmpState) : Outcome × OmpState :=
  let optimal := optimal_threads src (omp_get_max_threads omp)
  let omp := omp_set_num_threads optimal omp
  if src.empty then (.returned (clear contours0) (clear hierarchy0), omp)
  else if src.type ≠ CV_8UC1 then (.thrown .StsBadArg, omp)
  else
    match cvFindContours src.clone retr method offset with
    | .failure code => (.thrown (.capability code), omp)
    | .nothing => (.returned (clear contours0) (clear hierarchy0), omp)
    | .found f =>
      let total := f.all_contours.length
      if total = 0 then (.returned (clear contours0) (clear hierarchy0), omp)
      else
        let contours := resize total contours0 []
        let hierarchy := resize total hierarchy0 default
        let st := order.foldl (loopBody_v3 f) (contours, hierarchy)
        (.returned st.1 st.2, omp)

/-- Revision 3 of `myFindContours` (`v3/mytool.h`): the guard is constructed first and
destroyed on every way out of the function, a thrown exception included. -/
def myFindContours_v3 (cvFindContours : Tracer) (order : List Nat) (src : Mat)
    (contours0 : List (List Point)) (hierarchy0 : List Vec4i)
    (retr method : Int) (offset : Point) (omp : OmpState) : Outcome × OmpState :=
  let omp_guard := OMPGuard.create omp
  let r := scope_v3 cvFindContours order src contours0 hierarchy0 retr method offset omp
  (r.1, omp_guard.destroy r.2)

/-! ## The hierarchy entry the specification asks for -/

/-- Index of a link as the specification words it: `-1` when the link is absent, otherwise the
0-based position of the linked node in the flattened list. -/
def linkIndex (all : List Nat) (p : Option Nat) : Int :=
  match p with
  | some a => (all.indexOf a : Nat)
  | none => -1

/-- The 4-tuple `(next-sibling, previous-sibling, first-child, parent)` of the node at address
`a`, as the specification words it. -/
def specEntry (f : Forest) (a : Nat) : Vec4i :=
  ⟨linkIndex f.all_contours (f.seq a).h_next, linkIndex f.all_contours (f.seq a).h_prev,
   linkIndex f.all_contours (f.seq a).v_next, linkIndex f.all_contours (f.seq a).v_prev⟩

/-- Every link of a flattened node is absent or points to a flattened node. -/
def LinksClosed (f : Forest) : Prop :=
  ∀ a ∈ f.all_contours, ∀ b : Nat,
    ((f.seq a).h_next = some b ∨ (f.seq a).h_prev = some b ∨
     (f.seq a).v_next = some b ∨ (f.seq a).v_prev = some b) → b ∈ f.all_contours

/-! ## Concrete inputs -/

/-- A 1 x 3 raster with two foreground pixels. -/
def twoDots : Mat := ⟨1, 3, CV_8UC1, some [255, 0, 255]⟩

/-- The nodes of the forest for `twoDots`: two one-point contours that are siblings of each
other, at addresses 100 and 200. -/
def siblingsSeq (a : Nat) : CvSeq :=
  if a = 100 then ⟨[⟨2, 0⟩], none, some 200, none, none⟩
  else ⟨[⟨0, 0⟩], some 100, none, none, none⟩

/-- The forest for `twoDots`.  The `color` fields are zero, as a freshly created sequence
header is; the slots of the pointer sequence are taken to read as the nodes themselves. -/
def siblings : Forest :=
  { seq := siblingsSeq
    color := fun _ => 0
    all_contours := [100, 200]
    elem_color := fun _ => 0
    slot := fun i => siblingsSeq ([100, 200].getD i 0) }

/-- A 1 x 1 raster with one foreground pixel. -/
def oneDot : Mat := ⟨1, 1, CV_8UC1, some [255]⟩

/-- The forest for `oneDot`: one one-point contour at address 100; the bytes at the slot of the
pointer sequence read as an empty header. -/
def single : Forest :=
  { seq := fun _ => ⟨[⟨0, 0⟩], none, none, none, none⟩
    color := fun _ => 0
    all_contours := [100]
    elem_color := fun _ => 0
    slot := fun _ => ⟨[], none, none, none, none⟩ }

/-- A forest with one node that has no point, at address 100; the slot reads as the node. -/
def pointless : Forest :=
  { seq := fun _ => ⟨[], none, none, none, none⟩
    color := fun _ => 0
    all_contours := [100]
    elem_color := fun _ => 0
    slot := fun _ => ⟨[], none, none, none, none⟩ }

/-- An all-background raster of format `CV_8UC1`. -/
def blank (rows cols : Nat) : Mat :=
  ⟨rows, cols, CV_8UC1, some (List.replicate (rows * cols) 0)⟩

/-- An all-background raster of the 3-channel format `CV_8UC3`. -/
def blank3 (rows cols : Nat) : Mat :=
  ⟨rows, cols, CV_8UC3, some (List.replicate (rows * cols * 3) 0)⟩

/-- An empty raster that carries the 3-channel format, as `cv::Mat(0, 0, CV_8UC3)` is. -/
def emptyMat3 : Mat := ⟨0, 0, CV_8UC3, none⟩

/-- A default-constructed `cv::Mat`: no rows, no columns, null data. -/
def emptyMat : Mat := ⟨0, 0, CV_8UC1, none⟩

/-- A tracer that answers an empty image with the error `CV_StsBadFlag` (-206) and finds
nothing elsewhere. -/
def rejectEmpty : Tracer :=
  fun src _ _ _ => if src.empty then .failure (-206) else .nothing

/-! ## Vectors and slot-wise loops -/

theorem length_resize {α : Type} (n : Nat) (v : List α) (d : α) : (resize n v d).length = n := by
  simp [resize]
  omega

theorem resize_nil {α : Type} (n : Nat) (d : α) : resize n ([] : List α) d = List.replicate n d := by
  simp [resize]

theorem set_getD_self {α : Type} (cs : List α) (i : Nat) (d : α) :
    cs.set i (cs.getD i d) = cs := by
  apply List.ext_getElem? 
  intro k
  rw [List.getElem?_set]
  by_cases hik : i = k
  · subst hik
    by_cases hi : i < cs.length
    · simp [hi, List.getD_eq_getElem?_getD]
    · have hle : cs.length ≤ i := Nat.le_of_not_lt hi
      simp [hi, List.getElem?_eq_none hle]
  · simp [hik]

/-- A loop that rewrites slot `i` from its old value at each visited index, run over indices
that are pairwise distinct, rewrites each visited slot once and leaves the others alone. -/
theorem getElem?_foldl_slot {α : Type} (step : List α → Nat → List α) (w : Nat → α → α) (d : α)
    (hstep : ∀ acc i, step acc i = acc.set i (w i (acc.getD i d)))
    (l : List Nat) (hl : l.Nodup) (cs : List α) (k : Nat) :
    (l.foldl step cs)[k]? = if k ∈ l then (cs[k]?).map (w k) else cs[k]? := by
  induction l generalizing cs with
  | nil => simp
  | cons i l ih =>
    rw [List.foldl_cons, ih (List.nodup_cons.mp hl).2, hstep]
    have hnot : i ∉ l := (List.nodup_cons.mp hl).1
    by_cases hki : k = i
    · subst hki
      simp only [hnot, if_false, List.mem_cons, true_or, if_true]
      rw [List.getElem?_set]
      by_cases hk : k < cs.length
      · simp [hk, List.getD_eq_getElem?_getD]
      · have hle : cs.length ≤ k := Nat.le_of_not_lt hk
        simp [hk, List.getElem?_eq_none hle]
    · have hik : ¬ i = k := fun h => hki h.symm
      simp [List.getElem?_set, hik, hki]

theorem length_foldl_step {α : Type} (step : List α → Nat → List α)
    (hstep : ∀ acc i, (step acc i).length = acc.length) (l : List Nat) (cs : List α) :
    (l.foldl step cs).length = cs.length := by
  induction l generalizing cs with
  | nil => rfl
  | cons i l ih => rw [List.foldl_cons, ih, hstep]

theorem foldl_flatMap {σ β γ : Type} (g : β → List γ) (step : σ → γ → σ) (l : List β) (s : σ) :
    l.foldl (fun acc b => (g b).foldl step acc) s = (l.flatMap g).foldl step s := by
  induction l generalizing s with
  | nil => rfl
  | cons b l ih => simp [List.flatMap_cons, List.foldl_append, ih]

theorem cvCvtSeqToArray_resize (c : CvSeq) (v : List Point) :
    cvCvtSeqToArray c (resize c.elems.length v ⟨0, 0⟩) = c.elems := by
  unfold cvCvtSeqToArray
  have h : (resize c.elems.length v ⟨0, 0⟩).length = c.elems.length := length_resize _ _ _
  rw [List.drop_of_length_le (by omega)]
  simp

theorem total_toNat (c : CvSeq) : c.total.toNat = c.elems.length := by
  simp [CvSeq.total]

theorem total_le_zero (c : CvSeq) : c.total ≤ 0 ↔ c.elems = [] := by
  unfold CvSeq.total
  constructor
  · intro h
    have : c.elems.length = 0 := by omega
    exact List.length_eq_zero.mp this
  · intro h; simp [h]

/-! ## v2 -/

theorem perm_range_facts {total : Nat} {l : List Nat} (h : l.Perm (List.range total)) :
    l.Nodup ∧ ∀ k, k ∈ l ↔ k < total := by
  refine ⟨h.nodup_iff.mpr (List.nodup_range total), fun k => ?_⟩
  rw [h.mem_iff, List.mem_range]

theorem copyStep_v2_eq (f : Forest) (acc : List (List Point)) (i : Nat) :
    copyStep_v2 f acc i
      = acc.set i ((fun i v => if (f.seq (f.all_contours.getD i 0)).elems = [] then v
          else (f.seq (f.all_contours.getD i 0)).elems) i (acc.getD i [])) := by
  unfold copyStep_v2
  by_cases hc : (f.seq (f.all_contours.getD i 0)).total ≤ 0
  · have he := (total_le_zero _).mp hc
    simp only [hc, if_true, he, set_getD_self]
  · have he : ¬ (f.seq (f.all_contours.getD i 0)).elems = [] := fun h => hc ((total_le_zero _).mpr h)
    simp only [hc, if_false, total_toNat, cvCvtSeqToArray_resize, he]

theorem copy_v2_eq (f : Forest) (stripes : List Range)
    (hs : IsSplit f.all_contours.length stripes) :
    parallel_for_ stripes (copyBody_v2 f) (resize f.all_contours.length [] [])
      = f.all_contours.map (fun a => (f.seq a).elems) := by
  unfold parallel_for_ copyBody_v2
  rw [foldl_flatMap Range.indices (copyStep_v2 f)]
  obtain ⟨hnd, hmem⟩ := perm_range_facts hs
  apply List.ext_getElem?
  intro k
  rw [getElem?_foldl_slot (copyStep_v2 f)
    (fun i v => if (f.seq (f.all_contours.getD i 0)).elems = [] then v
      else (f.seq (f.all_contours.getD i 0)).elems) [] (copyStep_v2_eq f) _ hnd, resize_nil]
  simp only [hmem, List.getElem?_map]
  by_cases hk : k < f.all_contours.length
  · simp only [hk, if_true, List.getElem?_replicate, List.getD_eq_getElem?_getD,
      List.getElem?_eq_getElem hk, Option.map_some', Option.getD_some]
    by_cases he : (f.seq f.all_contours[k]).elems = []
    · simp [he]
    · simp [he]
  · have hk2 : f.all_contours.length ≤ k := by omega
    simp [hk, List.getElem?_replicate, List.getElem?_eq_none hk2]

theorem hierarchy_v2_eq (f : Forest) (stripes : List Range)
    (hs : IsSplit f.all_contours.length stripes) (h0 : List Vec4i)
    (hlen : h0.length = f.all_contours.length) :
    parallel_for_ stripes (hierarchyBody_v2 f) h0
      = f.all_contours.map (fun a =>
          (⟨linkColor f.elem_color (f.seq a).h_next, linkColor f.elem_color (f.seq a).h_prev,
            linkColor f.elem_color (f.seq a).v_next, linkColor f.elem_color (f.seq a).v_prev⟩ :
            Vec4i)) := by
  unfold parallel_for_ hierarchyBody_v2
  rw [foldl_flatMap Range.indices (hierarchyStep_v2 f)]
  have hstep : ∀ acc i, hierarchyStep_v2 f acc i = acc.set i
      ((fun i _ => (⟨linkColor f.elem_color (f.seq (f.all_contours.getD i 0)).h_next,
          linkColor f.elem_color (f.seq (f.all_contours.getD i 0)).h_prev,
          linkColor f.elem_color (f.seq (f.all_contours.getD i 0)).v_next,
          linkColor f.elem_color (f.seq (f.all_contours.getD i 0)).v_prev⟩ : Vec4i)) i
        (acc.getD i default)) := fun _ _ => rfl
  obtain ⟨hnd, hmem⟩ := perm_range_facts hs
  apply List.ext_getElem?
  intro k
  rw [getElem?_foldl_slot (hierarchyStep_v2 f)
    (fun i _ => (⟨linkColor f.elem_color (f.seq (f.all_contours.getD i 0)).h_next,
          linkColor f.elem_color (f.seq (f.all_contours.getD i 0)).h_prev,
          linkColor f.elem_color (f.seq (f.all_contours.getD i 0)).v_next,
          linkColor f.elem_color (f.seq (f.all_contours.getD i 0)).v_prev⟩ : Vec4i))
    default hstep _ hnd]
  simp only [hmem, List.getElem?_map]
  by_cases hk : k < f.all_contours.length
  · have hk0 : k < h0.length := hlen ▸ hk
    simp [hk, List.getD_eq_getElem?_getD, List.getElem?_eq_getElem hk,
      List.getElem?_eq_getElem hk0]
  · have hk2 : f.all_contours.length ≤ k := by omega
    have hk0 : h0.length ≤ k := hlen ▸ hk2
    simp [hk, List.getElem?_eq_none hk2, List.getElem?_eq_none hk0]

/-! ## v1 -/

theorem getD_cvCvtSeqToArray_int (elems : List Point) (n : Nat) (h : n < elems.length) :
    (elems.flatMap (fun p => [p.x, p.y])).getD (n * 2) 0 = elems[n].x ∧
    (elems.flatMap (fun p => [p.x, p.y])).getD (n * 2 + 1) 0 = elems[n].y := by
  induction elems generalizing n with
  | nil => simp at h
  | cons p ps ih =>
    cases n with
    | zero => simp [List.flatMap_cons]
    | succ n =>
      have hn : n < ps.length := by simpa using h
      have h2 : (n + 1) * 2 = n * 2 + 1 + 1 := by ring
      have h3 : (n + 1) * 2 + 1 = (n * 2 + 1) + 1 + 1 := by ring
      obtain ⟨hx, hy⟩ := ih n hn
      constructor
      · rw [h2]; simpa [List.flatMap_cons] using hx
      · rw [h3]; simpa [List.flatMap_cons] using hy

theorem pushPoints_take (c : CvSeq) (v : List Point) (n : Nat) (hn : n ≤ c.elems.length) :
    pushPoints (cvCvtSeqToArray_int c) n v = v ++ c.elems.take n := by
  unfold pushPoints cvCvtSeqToArray_int
  induction n with
  | zero => simp
  | succ n ih =>
    have hlt : n < c.elems.length := by omega
    obtain ⟨hx, hy⟩ := getD_cvCvtSeqToArray_int c.elems n hlt
    rw [List.range_succ, List.foldl_append, ih (by omega)]
    have ht : c.elems.take (n + 1) = c.elems.take n ++ [c.elems[n]] := by
      rw [List.take_succ, List.getElem?_eq_getElem hlt]
      rfl
    simp only [List.foldl_cons, List.foldl_nil, hx, hy, ht, List.append_assoc]

theorem pushPoints_all (c : CvSeq) (v : List Point) :
    pushPoints (cvCvtSeqToArray_int c) c.total.toNat v = v ++ c.elems := by
  rw [total_toNat, pushPoints_take c v _ (le_refl _), List.take_length]

theorem copyLoop_v1_contours (f : Forest) (it : List Nat) (i : Nat) (color : Nat → Int)
    (cs : List (List Point)) (k : Nat) :
    (copyLoop_v1 f it i (color, cs)).2[k]?
      = if i ≤ k ∧ k < i + it.length then
          (cs[k]?).map (fun v => v ++ (f.seq (it.getD (k - i) 0)).elems)
        else cs[k]? := by
  induction it generalizing i color cs with
  | nil =>
    have h0 : ¬ (i ≤ k ∧ k < i + ([] : List Nat).length) := by simp
    simp only [copyLoop_v1, h0, if_false]
  | cons c it ih =>
    have hcs : (if (f.seq c).total > 0 then
          cs.set i (pushPoints (cvCvtSeqToArray_int (f.seq c)) (f.seq c).total.toNat
            (cs.getD i []))
        else cs) = cs.set i (cs.getD i [] ++ (f.seq c).elems) := by
      by_cases hc : (f.seq c).total > 0
      · simp only [hc, if_true, pushPoints_all]
      · have he : (f.seq c).elems = [] := (total_le_zero _).mp (by omega)
        simp only [hc, if_false, he, List.append_nil, set_getD_self]
    simp only [copyLoop_v1, hcs]
    rw [ih]
    rcases Nat.lt_trichotomy k i with hlt | heq | hgt
    · have h1 : ¬ (i + 1 ≤ k ∧ k < i + 1 + it.length) := by omega
      have h2 : ¬ (i ≤ k ∧ k < i + (c :: it).length) := by omega
      have h3 : ¬ i = k := by omega
      simp only [h1, h2, if_false, List.getElem?_set, h3]
    · subst heq
      have h1 : ¬ (k + 1 ≤ k ∧ k < k + 1 + it.length) := by omega
      have h2 : (k ≤ k ∧ k < k + (c :: it).length) := by simp
      simp only [h1, h2, if_false, if_true, List.getElem?_set, Nat.sub_self, List.getD_cons_zero]
      by_cases hk : k < cs.length
      · simp [hk, List.getD_eq_getElem?_getD]
      · have hle : cs.length ≤ k := Nat.le_of_not_lt hk
        simp [hk, List.getElem?_eq_none hle]
    · have h3 : ¬ i = k := by omega
      have h4 : k - i = (k - (i + 1)) + 1 := by omega
      have h5 : (i + 1 ≤ k ∧ k < i + 1 + it.length) ↔ (i ≤ k ∧ k < i + (c :: it).length) := by
        simp only [List.length_cons]; omega
      simp only [h5, List.getElem?_set, h3, if_false, h4, List.getD_cons_succ]

theorem copyLoop_v1_color (f : Forest) (it : List Nat) (hnd : it.Nodup) (i : Nat)
    (color : Nat → Int) (cs : List (List Point)) (a : Nat) :
    (copyLoop_v1 f it i (color, cs)).1 a
      = if a ∈ it then ((i + it.indexOf a : Nat) : Int) else color a := by
  induction it generalizing i color cs with
  | nil => simp [copyLoop_v1]
  | cons c it ih =>
    simp only [copyLoop_v1]
    rw [ih (List.nodup_cons.mp hnd).2]
    have hnot : c ∉ it := (List.nodup_cons.mp hnd).1
    by_cases hac : a = c
    · subst hac
      simp [hnot]
    · by_cases hmem : a ∈ it
      · simp only [hmem, if_true, List.mem_cons, or_true, List.indexOf_cons_ne _ (Ne.symm hac)]
        congr 1
        omega
      · simp [hmem, hac, Function.update_noteq hac]

theorem hierarchyLoop_v1_getElem? (f : Forest) (color : Nat → Int) (it : List Nat) (i : Nat)
    (hs : List Vec4i) (k : Nat) :
    (hierarchyLoop_v1 f color it i hs)[k]?
      = if i ≤ k ∧ k < i + it.length then
          (hs[k]?).map (fun _ =>
            (⟨linkColor color (f.seq (it.getD (k - i) 0)).h_next,
              linkColor color (f.seq (it.getD (k - i) 0)).h_prev,
              linkColor color (f.seq (it.getD (k - i) 0)).v_next,
              linkColor color (f.seq (it.getD (k - i) 0)).v_prev⟩ : Vec4i))
        else hs[k]? := by
  induction it generalizing i hs with
  | nil =>
    have h0 : ¬ (i ≤ k ∧ k < i + ([] : List Nat).length) := by simp
    simp only [hierarchyLoop_v1, h0, if_false]
  | cons c it ih =>
    simp only [hierarchyLoop_v1]
    rw [ih]
    rcases Nat.lt_trichotomy k i with hlt | heq | hgt
    · have h1 : ¬ (i + 1 ≤ k ∧ k < i + 1 + it.length) := by omega
      have h2 : ¬ (i ≤ k ∧ k < i + (c :: it).length) := by omega
      have h3 : ¬ i = k := by omega
      simp only [h1, h2, if_false, List.getElem?_set, h3]
    · subst heq
      have h1 : ¬ (k + 1 ≤ k ∧ k < k + 1 + it.length) := by omega
      have h2 : (k ≤ k ∧ k < k + (c :: it).length) := by simp
      simp only [h1, h2, if_false, if_true, List.getElem?_set, Nat.sub_self, List.getD_cons_zero]
      by_cases hk : k < hs.length
      · simp [hk]
      · have hle : hs.length ≤ k := Nat.le_of_not_lt hk
        simp [hk, List.getElem?_eq_none hle]
    · have h3 : ¬ i = k := by omega
      have h4 : k - i = (k - (i + 1)) + 1 := by omega
      have h5 : (i + 1 ≤ k ∧ k < i + 1 + it.length) ↔ (i ≤ k ∧ k < i + (c :: it).length) := by
        simp only [List.length_cons]; omega
      simp only [h5, List.getElem?_set, h3, if_false, h4, List.getD_cons_succ]

/-! ## Lengths -/

theorem length_copyLoop_v1 (f : Forest) (it : List Nat) (i : Nat) (color : Nat → Int)
    (cs : List (List Point)) : (copyLoop_v1 f it i (color, cs)).2.length = cs.length := by
  induction it generalizing i color cs with
  | nil => rfl
  | cons c it ih =>
    simp only [copyLoop_v1]
    rw [ih]
    split_ifs <;> simp

theorem length_hierarchyLoop_v1 (f : Forest) (color : Nat → Int) (it : List Nat) (i : Nat)
    (hs : List Vec4i) : (hierarchyLoop_v1 f color it i hs).length = hs.length := by
  induction it generalizing i hs with
  | nil => rfl
  | cons c it ih =>
    simp only [hierarchyLoop_v1]
    rw [ih]
    simp

theorem length_copy_v2 (f : Forest) (stripes : List Range) (cs : List (List Point)) :
    (parallel_for_ stripes (copyBody_v2 f) cs).length = cs.length := by
  unfold parallel_for_ copyBody_v2
  rw [foldl_flatMap Range.indices (copyStep_v2 f)]
  apply length_foldl_step
  intro acc i
  unfold copyStep_v2
  simp only
  split_ifs <;> simp

theorem length_hierarchy_v2 (f : Forest) (stripes : List Range) (hs : List Vec4i) :
    (parallel_for_ stripes (hierarchyBody_v2 f) hs).length = hs.length := by
  unfold parallel_for_ hierarchyBody_v2
  rw [foldl_flatMap Range.indices (hierarchyStep_v2 f)]
  apply length_foldl_step
  intro acc i
  simp [hierarchyStep_v2]

theorem length_loop_v3 (f : Forest) (order : List Nat) (st : List (List Point) × List Vec4i) :
    (order.foldl (loopBody_v3 f) st).1.length = st.1.length ∧
    (order.foldl (loopBody_v3 f) st).2.length = st.2.length := by
  induction order generalizing st with
  | nil => exact ⟨rfl, rfl⟩
  | cons i order ih =>
    rw [List.foldl_cons]
    obtain ⟨h1, h2⟩ := ih (loopBody_v3 f st i)
    rw [h1, h2]
    unfold loopBody_v3
    constructor
    · simp only
      split_ifs <;> simp
    · simp

/-! ## Results of the three revisions -/

theorem v1_found (cvFindContours : Tracer) (src : Mat) (contours0 : List (List Point))
    (hierarchy0 : List Vec4i) (retr method : Int) (offset : Point) (f : Forest)
    (hf : cvFindContours src.clone retr method offset = .found f) :
    myFindContours_v1 cvFindContours src contours0 hierarchy0 retr method offset
      = .returned
          (copyLoop_v1 f f.all_contours 0 (f.color, resize f.all_contours.length [] [])).2
          (hierarchyLoop_v1 f
            (copyLoop_v1 f f.all_contours 0 (f.color, resize f.all_contours.length [] [])).1
            f.all_contours 0 (resize f.all_contours.length [] default)) := by
  simp [myFindContours_v1, hf, clear]

theorem v2_found (cvFindContours : Tracer) (stripes1 stripes2 : List Range) (src : Mat)
    (contours0 : List (List Point)) (hierarchy0 : List Vec4i) (retr method : Int)
    (offset : Point) (f : Forest) (hne : src.empty = false) (hty : src.type = CV_8UC1)
    (hf : cvFindContours src.clone retr method offset = .found f) :
    myFindContours_v2 cvFindContours stripes1 stripes2 src contours0 hierarchy0 retr method
        offset
      = .returned
          (parallel_for_ stripes1 (copyBody_v2 f) (resize f.all_contours.length [] []))
          (parallel_for_ stripes2 (hierarchyBody_v2 f)
            (resize f.all_contours.length [] default)) := by
  simp [myFindContours_v2, hf, clear, hne, hty]

theorem v3_found (cvFindContours : Tracer) (order : List Nat) (src : Mat)
    (contours0 : List (List Point)) (hierarchy0 : List Vec4i) (retr method : Int)
    (offset : Point) (omp : OmpState) (f : Forest) (hne : src.empty = false)
    (hty : src.type = CV_8UC1)
    (hf : cvFindContours src.clone retr method offset = .found f) :
    (myFindContours_v3 cvFindContours order src contours0 hierarchy0 retr method offset omp).1
      = if f.all_contours.length = 0 then .returned [] []
        else .returned
          (order.foldl (loopBody_v3 f)
            (resize f.all_contours.length contours0 [],
             resize f.all_contours.length hierarchy0 default)).1
          (order.foldl (loopBody_v3 f)
            (resize f.all_contours.length contours0 [],
             resize f.all_contours.length hierarchy0 default)).2 := by
  simp only [myFindContours_v3, scope_v3, hf, hne, hty]
  simp only [Bool.false_eq_true, if_false, ne_eq, not_true_eq_false]
  split_ifs <;> rfl

/-- C4: for a valid raster, whatever the tracer returns and whatever the output vectors held,
a call of v1, v2 or v3 that returns leaves `contours` and `hierarchy` of the same length, the
number of nodes of the flattened forest (zero when nothing was found); and the call does
return unless the tracer itself fails. -/
theorem lengths_equal_node_count (cvFindContours : Tracer) (stripes1 stripes2 : List Range)
    (order : List Nat) (src : Mat) (contours0 : List (List Point)) (hierarchy0 : List Vec4i)
    (retr method : Int) (offset : Point) (omp : OmpState)
    (hne : src.empty = false) (hty : src.type = CV_8UC1) :
    (∀ c h, myFindContours_v1 cvFindContours src contours0 hierarchy0 retr method offset
        = .returned c h →
      c.length = h.length ∧
      c.length = (cvFindContours src.clone retr method offset).nodeCount) ∧
    (∀ c h, myFindContours_v2 cvFindContours stripes1 stripes2 src contours0 hierarchy0 retr
        method offset = .returned c h →
      c.length = h.length ∧
      c.length = (cvFindContours src.clone retr method offset).nodeCount) ∧
    (∀ c h, (myFindContours_v3 cvFindContours order src contours0 hierarchy0 retr method offset
        omp).1 = .returned c h →
      c.length = h.length ∧
      c.length = (cvFindContours src.clone retr method offset).nodeCount) ∧
    ((∀ code, cvFindContours src.clone retr method offset ≠ .failure code) →
      (∃ c h, myFindContours_v1 cvFindContours src contours0 hierarchy0 retr method offset
        = .returned c h) ∧
      (∃ c h, myFindContours_v2 cvFindContours stripes1 stripes2 src contours0 hierarchy0 retr
        method offset = .returned c h) ∧
      (∃ c h, (myFindContours_v3 cvFindContours order src contours0 hierarchy0 retr method
        offset omp).1 = .returned c h)) := by
  cases hf : cvFindContours src.clone retr method offset with
  | failure code =>
    refine ⟨?_, ?_, ?_, ?_⟩
    · intro c h hret
      simp [myFindContours_v1, hf] at hret
    · intro c h hret
      simp [myFindContours_v2, hf, hne, hty] at hret
    · intro c h hret
      simp [myFindContours_v3, scope_v3, hf, hne, hty] at hret
    · intro hno
      exact absurd rfl (hno code)
  | nothing =>
    refine ⟨?_, ?_, ?_, ?_⟩
    · intro c h hret
      simp only [myFindContours_v1, hf, Outcome.returned.injEq] at hret
      obtain ⟨rfl, rfl⟩ := hret
      simp [TraceResult.nodeCount]
    · intro c h hret
      simp only [myFindContours_v2, hf, hne, hty, clear, Bool.false_eq_true, if_false, ne_eq,
        not_true_eq_false, Outcome.returned.injEq] at hret
      obtain ⟨rfl, rfl⟩ := hret
      simp [TraceResult.nodeCount]
    · intro c h hret
      simp only [myFindContours_v3, scope_v3, hf, hne, hty, Bool.false_eq_true, if_false, ne_eq,
        not_true_eq_false, Outcome.returned.injEq] at hret
      obtain ⟨rfl, rfl⟩ := hret
      simp [TraceResult.nodeCount]
    · intro _
      refine ⟨⟨[], [], ?_⟩, ⟨[], [], ?_⟩, ⟨[], [], ?_⟩⟩
      · simp [myFindContours_v1, hf]
      · simp [myFindContours_v2, hf, hne, hty, clear]
      · simp [myFindContours_v3, scope_v3, hf, hne, hty]
  | found f =>
    have e1 := v1_found cvFindContours src contours0 hierarchy0 retr method offset f hf
    have e2 := v2_found cvFindContours stripes1 stripes2 src contours0 hierarchy0 retr method
      offset f hne hty hf
    have e3 := v3_found cvFindContours order src contours0 hierarchy0 retr method offset omp f
      hne hty hf
    refine ⟨?_, ?_, ?_, ?_⟩
    · intro c h hret
      rw [e1, Outcome.returned.injEq] at hret
      obtain ⟨rfl, rfl⟩ := hret
      simp [TraceResult.nodeCount, length_copyLoop_v1, length_hierarchyLoop_v1, length_resize]
    · intro c h hret
      rw [e2, Outcome.returned.injEq] at hret
      obtain ⟨rfl, rfl⟩ := hret
      simp [TraceResult.nodeCount, length_copy_v2, length_hierarchy_v2, length_resize]
    · intro c h hret
      rw [e3] at hret
      by_cases h0 : f.all_contours.length = 0
      · simp only [h0, if_true, Outcome.returned.injEq] at hret
        obtain ⟨rfl, rfl⟩ := hret
        simp [TraceResult.nodeCount, h0]
      · simp only [h0, if_false, Outcome.returned.injEq] at hret
        obtain ⟨rfl, rfl⟩ := hret
        obtain ⟨h1, h2⟩ := length_loop_v3 f order
          (resize f.all_contours.length contours0 [],
           resize f.all_contours.length hierarchy0 default)
        simp [TraceResult.nodeCount, h1, h2, length_resize]
    · intro _
      refine ⟨⟨_, _, e1⟩, ⟨_, _, e2⟩, ?_⟩
      rw [e3]
      by_cases h0 : f.all_contours.length = 0
      · rw [if_pos h0]
        exact ⟨_, _, rfl⟩
      · rw [if_neg h0]
        exact ⟨_, _, rfl⟩

/-- Witness of C4: the two-dot raster and its two-node forest, with stale output vectors. -/
theorem lengths_equal_node_count_witness :
    (∀ c h, myFindContours_v1 (fun _ _ _ _ => .found siblings) twoDots [[⟨9, 9⟩]] [] 1 2 ⟨0, 0⟩
        = .returned c h →
      c.length = h.length ∧
      c.length = ((fun _ _ _ _ => .found siblings : Tracer) twoDots.clone 1 2 ⟨0, 0⟩).nodeCount) ∧
    (∀ c h, myFindContours_v2 (fun _ _ _ _ => .found siblings) [⟨1, 2⟩, ⟨0, 1⟩] [⟨0, 2⟩] twoDots
        [[⟨9, 9⟩]] [] 1 2 ⟨0, 0⟩ = .returned c h →
      c.length = h.length ∧
      c.length = ((fun _ _ _ _ => .found siblings : Tracer) twoDots.clone 1 2 ⟨0, 0⟩).nodeCount) ∧
    (∀ c h, (myFindContours_v3 (fun _ _ _ _ => .found siblings) [1, 0] twoDots [[⟨9, 9⟩]] [] 1 2
        ⟨0, 0⟩ ⟨8⟩).1 = .returned c h →
      c.length = h.length ∧
      c.length = ((fun _ _ _ _ => .found siblings : Tracer) twoDots.clone 1 2 ⟨0, 0⟩).nodeCount) ∧
    ((∀ code, (fun _ _ _ _ => .found siblings : Tracer) twoDots.clone 1 2 ⟨0, 0⟩
        ≠ .failure code) →
      (∃ c h, myFindContours_v1 (fun _ _ _ _ => .found siblings) twoDots [[⟨9, 9⟩]] [] 1 2
        ⟨0, 0⟩ = .returned c h) ∧
      (∃ c h, myFindContours_v2 (fun _ _ _ _ => .found siblings) [⟨1, 2⟩, ⟨0, 1⟩] [⟨0, 2⟩]
        twoDots [[⟨9, 9⟩]] [] 1 2 ⟨0, 0⟩ = .returned c h) ∧
      (∃ c h, (myFindContours_v3 (fun _ _ _ _ => .found siblings) [1, 0] twoDots [[⟨9, 9⟩]] []
        1 2 ⟨0, 0⟩ ⟨8⟩).1 = .returned c h)) :=
  lengths_equal_node_count (fun _ _ _ _ => .found siblings) [⟨1, 2⟩, ⟨0, 1⟩] [⟨0, 2⟩] [1, 0]
    twoDots [[⟨9, 9⟩]] [] 1 2 ⟨0, 0⟩ ⟨8⟩ (by decide) (by decide)

/-! ## What v1 and v2 return for a forest -/

theorem copyLoop_v1_eq_map (f : Forest) (color : Nat → Int) :
    (copyLoop_v1 f f.all_contours 0 (color, resize f.all_contours.length [] [])).2
      = f.all_contours.map (fun a => (f.seq a).elems) := by
  apply List.ext_getElem?
  intro k
  rw [copyLoop_v1_contours, resize_nil, List.getElem?_map]
  by_cases hk : k < f.all_contours.length
  · have h1 : 0 ≤ k ∧ k < 0 + f.all_contours.length := by omega
    simp only [h1, and_self, if_true, List.getElem?_replicate, hk, Option.map_some',
      List.nil_append, Nat.sub_zero, List.getD_eq_getElem?_getD, List.getElem?_eq_getElem hk,
      Option.getD_some]
  · have h1 : ¬ (0 ≤ k ∧ k < 0 + f.all_contours.length) := by omega
    have hk2 : f.all_contours.length ≤ k := by omega
    simp [h1, List.getElem?_replicate, hk, List.getElem?_eq_none hk2]

theorem linkColor_eq_linkIndex (f : Forest) (color1 : Nat → Int)
    (hcol : ∀ a ∈ f.all_contours, color1 a = ((f.all_contours.indexOf a : Nat) : Int))
    (p : Option Nat) (hp : ∀ b, p = some b → b ∈ f.all_contours) :
    linkColor color1 p = linkIndex f.all_contours p := by
  cases p with
  | none => rfl
  | some b => simp [linkColor, linkIndex, hcol b (hp b rfl)]

theorem hierarchyLoop_v1_eq_map (f : Forest) (hnd : f.all_contours.Nodup)
    (hlinks : LinksClosed f) :
    hierarchyLoop_v1 f
        (copyLoop_v1 f f.all_contours 0 (f.color, resize f.all_contours.length [] [])).1
        f.all_contours 0 (resize f.all_contours.length [] default)
      = f.all_contours.map (specEntry f) := by
  have hcol : ∀ a ∈ f.all_contours,
      (copyLoop_v1 f f.all_contours 0 (f.color, resize f.all_contours.length [] [])).1 a
        = ((f.all_contours.indexOf a : Nat) : Int) := by
    intro a ha
    rw [copyLoop_v1_color f _ hnd]
    simp [ha]
  generalize (copyLoop_v1 f f.all_contours 0
    (f.color, resize f.all_contours.length [] [])).1 = color1 at hcol
  apply List.ext_getElem?
  intro k
  rw [hierarchyLoop_v1_getElem?, resize_nil, List.getElem?_map]
  by_cases hk : k < f.all_contours.length
  · have h1 : 0 ≤ k ∧ k < 0 + f.all_contours.length := by omega
    have hmem : f.all_contours[k] ∈ f.all_contours := List.getElem_mem hk
    simp only [h1, and_self, if_true, List.getElem?_replicate, hk, Option.map_some',
      Nat.sub_zero, List.getD_eq_getElem?_getD, List.getElem?_eq_getElem hk, Option.getD_some]
    unfold specEntry
    rw [linkColor_eq_linkIndex f _ hcol _ (fun b hb => hlinks _ hmem b (Or.inl hb)),
      linkColor_eq_linkIndex f _ hcol _ (fun b hb => hlinks _ hmem b (Or.inr (Or.inl hb))),
      linkColor_eq_linkIndex f _ hcol _
        (fun b hb => hlinks _ hmem b (Or.inr (Or.inr (Or.inl hb)))),
      linkColor_eq_linkIndex f _ hcol _
        (fun b hb => hlinks _ hmem b (Or.inr (Or.inr (Or.inr hb))))]
  · have h1 : ¬ (0 ≤ k ∧ k < 0 + f.all_contours.length) := by omega
    have hk2 : f.all_contours.length ≤ k := by omega
    simp [h1, List.getElem?_replicate, hk, List.getElem?_eq_none hk2]

/-- In v1 the contours are the point sequences of the flattened nodes, in order, and each
hierarchy entry holds the positions of the linked nodes (`-1` for an absent link), provided
the flattened list names each node once and the links stay inside it. -/
theorem v1_returns_nodes_and_positions (cvFindContours : Tracer) (src : Mat)
    (contours0 : List (List Point)) (hierarchy0 : List Vec4i) (retr method : Int)
    (offset : Point) (f : Forest)
    (hf : cvFindContours src.clone retr method offset = .found f)
    (hnd : f.all_contours.Nodup) (hlinks : LinksClosed f) :
    myFindContours_v1 cvFindContours src contours0 hierarchy0 retr method offset
      = .returned (f.all_contours.map (fun a => (f.seq a).elems))
          (f.all_contours.map (specEntry f)) := by
  rw [v1_found _ _ _ _ _ _ _ f hf, copyLoop_v1_eq_map, hierarchyLoop_v1_eq_map f hnd hlinks]

/-- In v1 the contours are the point sequences of the flattened nodes whatever the links are. -/
theorem v1_returns_nodes (cvFindContours : Tracer) (src : Mat)
    (contours0 : List (List Point)) (hierarchy0 : List Vec4i) (retr method : Int)
    (offset : Point) (f : Forest)
    (hf : cvFindContours src.clone retr method offset = .found f) :
    ∃ h, myFindContours_v1 cvFindContours src contours0 hierarchy0 retr method offset
      = .returned (f.all_contours.map (fun a => (f.seq a).elems)) h := by
  rw [v1_found _ _ _ _ _ _ _ f hf, copyLoop_v1_eq_map]
  exact ⟨_, rfl⟩

/-- In v2 the contours are the point sequences of the flattened nodes, in order, however the
index range is split; the hierarchy entries are what the element-pointer read returns. -/
theorem v2_returns_nodes (cvFindContours : Tracer) (stripes1 stripes2 : List Range) (src : Mat)
    (contours0 : List (List Point)) (hierarchy0 : List Vec4i) (retr method : Int)
    (offset : Point) (f : Forest) (hne : src.empty = false) (hty : src.type = CV_8UC1)
    (hf : cvFindContours src.clone retr method offset = .found f)
    (hs1 : IsSplit f.all_contours.length stripes1)
    (hs2 : IsSplit f.all_contours.length stripes2) :
    myFindContours_v2 cvFindContours stripes1 stripes2 src contours0 hierarchy0 retr method
        offset
      = .returned (f.all_contours.map (fun a => (f.seq a).elems))
          (f.all_contours.map (fun a =>
            (⟨linkColor f.elem_color (f.seq a).h_next, linkColor f.elem_color (f.seq a).h_prev,
              linkColor f.elem_color (f.seq a).v_next,
              linkColor f.elem_color (f.seq a).v_prev⟩ : Vec4i))) := by
  rw [v2_found _ _ _ _ _ _ _ _ _ f hne hty hf, copy_v2_eq f stripes1 hs1,
    hierarchy_v2_eq f stripes2 hs2 _ (length_resize _ _ _)]

/-! ## What v3 returns for a forest -/

theorem loop_v3_fst (f : Forest) (order : List Nat) (st : List (List Point) × List Vec4i) :
    (order.foldl (loopBody_v3 f) st).1
      = order.foldl (fun cs i => (loopBody_v3 f (cs, [])  i).1) st.1 := by
  induction order generalizing st with
  | nil => rfl
  | cons i order ih =>
    rw [List.foldl_cons, List.foldl_cons, ih]
    rfl

theorem loop_v3_snd (f : Forest) (order : List Nat) (st : List (List Point) × List Vec4i) :
    (order.foldl (loopBody_v3 f) st).2
      = order.foldl (fun hs i => (loopBody_v3 f ([], hs) i).2) st.2 := by
  induction order generalizing st with
  | nil => rfl
  | cons i order ih =>
    rw [List.foldl_cons, List.foldl_cons, ih]
    rfl

theorem loop_v3_fst_step (f : Forest) (acc : List (List Point)) (i : Nat) :
    (loopBody_v3 f (acc, []) i).1
      = acc.set i ((fun i v => if (f.slot i).elems = [] then v else (f.slot i).elems) i
          (acc.getD i [])) := by
  unfold loopBody_v3
  by_cases hc : (f.slot i).total > 0
  · have he : ¬ (f.slot i).elems = [] := fun h => by
      have := (total_le_zero (f.slot i)).mpr h
      omega
    simp only [hc, if_true, total_toNat, cvCvtSeqToArray_resize, he, if_false]
  · have he : (f.slot i).elems = [] := (total_le_zero _).mp (by omega)
    simp only [hc, if_false, he, if_true, set_getD_self]

theorem getElem?_map_range {α : Type} (g : Nat → α) (n k : Nat) :
    ((List.range n).map g)[k]? = if k < n then some (g k) else none := by
  by_cases hk : k < n
  · simp [hk, List.getElem?_map, List.getElem?_range hk]
  · have hk2 : (List.range n).length ≤ k := by simp; omega
    simp [hk, List.getElem?_map, List.getElem?_eq_none hk2]

/-- In v3 slot `i` of the result is built from the bytes at the `i`-th slot of the pointer
sequence read as a header (`f.slot i`): the points come from there, the links are looked up in
the `color` fields as the tracer left them, and a slot whose header reads as empty keeps what
the caller had in `contours[i]`. -/
theorem v3_returns_slots (cvFindContours : Tracer) (order : List Nat) (src : Mat)
    (contours0 : List (List Point)) (hierarchy0 : List Vec4i) (retr method : Int)
    (offset : Point) (omp : OmpState) (f : Forest) (hne : src.empty = false)
    (hty : src.type = CV_8UC1)
    (hf : cvFindContours src.clone retr method offset = .found f)
    (hpos : f.all_contours.length ≠ 0)
    (hord : IsOrder f.all_contours.length order) :
    (myFindContours_v3 cvFindContours order src contours0 hierarchy0 retr method offset omp).1
      = .returned
          ((List.range f.all_contours.length).map (fun i =>
            if (f.slot i).elems = [] then (resize f.all_contours.length contours0 []).getD i []
            else (f.slot i).elems))
          ((List.range f.all_contours.length).map (fun i =>
            (⟨linkColor f.color (f.slot i).h_next, linkColor f.color (f.slot i).h_prev,
              linkColor f.color (f.slot i).v_next, linkColor f.color (f.slot i).v_prev⟩ :
              Vec4i))) := by
  rw [v3_found _ _ _ _ _ _ _ _ _ f hne hty hf, if_neg hpos, loop_v3_fst, loop_v3_snd]
  obtain ⟨hnd, hmem⟩ := perm_range_facts hord
  congr 1
  · apply List.ext_getElem?
    intro k
    rw [getElem?_foldl_slot _
      (fun i v => if (f.slot i).elems = [] then v else (f.slot i).elems) []
      (loop_v3_fst_step f) _ hnd, getElem?_map_range]
    simp only [hmem]
    by_cases hk : k < f.all_contours.length
    · have hk1 : k < (resize f.all_contours.length contours0 []).length := by
        rw [length_resize]; exact hk
      simp only [hk, if_true, List.getElem?_eq_getElem hk1, Option.map_some',
        List.getD_eq_getElem?_getD, Option.getD_some]
    · have hk1 : (resize f.all_contours.length contours0 []).length ≤ k := by
        rw [length_resize]; omega
      simp only [hk, if_false, List.getElem?_eq_none hk1]
  · apply List.ext_getElem?
    intro k
    have hstep : ∀ (acc : List Vec4i) (i : Nat), (loopBody_v3 f ([], acc) i).2 = acc.set i
        ((fun i _ => (⟨linkColor f.color (f.slot i).h_next, linkColor f.color (f.slot i).h_prev,
              linkColor f.color (f.slot i).v_next, linkColor f.color (f.slot i).v_prev⟩ :
              Vec4i)) i (acc.getD i default)) := fun _ _ => rfl
    rw [getElem?_foldl_slot _
      (fun i _ => (⟨linkColor f.color (f.slot i).h_next, linkColor f.color (f.slot i).h_prev,
              linkColor f.color (f.slot i).v_next, linkColor f.color (f.slot i).v_prev⟩ :
              Vec4i)) default hstep _ hnd, getElem?_map_range]
    simp only [hmem]
    by_cases hk : k < f.all_contours.length
    · have hk1 : k < (resize f.all_contours.length hierarchy0 default).length := by
        rw [length_resize]; exact hk
      simp only [hk, if_true, List.getElem?_eq_getElem hk1, Option.map_some']
    · have hk1 : (resize f.all_contours.length hierarchy0 default).length ≤ k := by
        rw [length_resize]; omega
      simp only [hk, if_false, List.getElem?_eq_none hk1]

/-! ## Arithmetic of the thread choice -/

theorem wrapInt64_of_int32 (r c : Int) (hr : -2 ^ 31 ≤ r ∧ r < 2 ^ 31)
    (hc : -2 ^ 31 ≤ c ∧ c < 2 ^ 31) : wrapInt64 (r * c) = r * c := by
  unfold wrapInt64
  have h1 : -(2 ^ 62 : Int) ≤ r * c := by nlinarith [hr.1, hr.2, hc.1, hc.2]
  have h2 : r * c ≤ (2 ^ 62 : Int) := by nlinarith [hr.1, hr.2, hc.1, hc.2]
  rw [Int.emod_eq_of_lt (by omega) (by omega)]
  omega

theorem scope_v3_nthreads (cvFindContours : Tracer) (order : List Nat) (src : Mat)
    (contours0 : List (List Point)) (hierarchy0 : List Vec4i)
    (retr method : Int) (offset : Point) (omp : OmpState) :
    (scope_v3 cvFindContours order src contours0 hierarchy0 retr method offset omp).2.nthreads
      = optimal_threads src omp.nthreads := by
  unfold scope_v3
  simp only [omp_get_max_threads, omp_set_num_threads]
  split_ifs <;> try rfl
  split <;> try rfl
  split_ifs <;> rfl

/-- C7: in v3 the worker count in force when the loop is dispatched is the step function of
the exact pixel count `p = rows * cols`: `1` below `512*512`, `max(2, m/2)` below `2048*2048`,
and the available count `m` from there on. -/
theorem v3_worker_count_is_step_function (cvFindContours : Tracer) (order : List Nat)
    (src : Mat) (contours0 : List (List Point)) (hierarchy0 : List Vec4i)
    (retr method : Int) (offset : Point) (m : Int)
    (hr : -2 ^ 31 ≤ src.rows ∧ src.rows < 2 ^ 31)
    (hc : -2 ^ 31 ≤ src.cols ∧ src.cols < 2 ^ 31) (hm : 1 ≤ m) :
    (scope_v3 cvFindContours order src contours0 hierarchy0 retr method offset ⟨m⟩).2.nthreads
      = if src.rows * src.cols < 512 * 512 then 1
        else if src.rows * src.cols < 2048 * 2048 then max 2 (m / 2)
        else m := by
  rw [scope_v3_nthreads]
  unfold optimal_threads
  simp only [wrapInt64_of_int32 _ _ hr hc]
  have hdiv : Int.tdiv m 2 = m / 2 := Int.tdiv_eq_ediv (by omega) (by omega)
  rw [hdiv]

/-- Witness of C7: a 1024 x 1024 raster with 8 available workers runs on 4. -/
theorem v3_worker_count_is_step_function_witness :
    (scope_v3 (fun _ _ _ _ => .nothing) [] (blank 1024 1024) [] [] 0 0 ⟨0, 0⟩
        ⟨8⟩).2.nthreads
      = if (1024 : Int) * 1024 < 512 * 512 then 1
        else if (1024 : Int) * 1024 < 2048 * 2048 then max 2 (8 / 2)
        else 8 :=
  v3_worker_count_is_step_function (fun _ _ _ _ => .nothing) [] (blank 1024 1024)
    [] [] 0 0 ⟨0, 0⟩ 8 (by decide) (by decide) (by decide)

/-- C8: on every way out of v3 the process-global worker-count setting is the one found on
entry. -/
theorem v3_restores_worker_count (cvFindContours : Tracer) (order : List Nat) (src : Mat)
    (contours0 : List (List Point)) (hierarchy0 : List Vec4i)
    (retr method : Int) (offset : Point) (omp : OmpState) :
    (myFindContours_v3 cvFindContours order src contours0 hierarchy0 retr method offset omp).2
      = omp := by
  simp [myFindContours_v3, OMPGuard.destroy, OMPGuard.create, omp_set_num_threads,
    omp_get_max_threads]

/-- C10 fails as stated: with one available worker a 512 x 512 raster asks for two. -/
theorem v3_worker_count_exceeds_available :
    ¬ ((scope_v3 (fun _ _ _ _ => .nothing) [] (blank 512 512) [] [] 0 0 ⟨0, 0⟩
        ⟨1⟩).2.nthreads ≤ 1) := by
  decide

/-- C10, amended: the worker count set by v3 is at least 1 and at most `max(2, m)`; it is at
most `m` whenever at least two workers were available. -/
theorem v3_worker_count_bounds (cvFindContours : Tracer) (order : List Nat)
    (src : Mat) (contours0 : List (List Point)) (hierarchy0 : List Vec4i)
    (retr method : Int) (offset : Point) (m : Int) (hm : 1 ≤ m) :
    1 ≤ (scope_v3 cvFindContours order src contours0 hierarchy0 retr method offset
          ⟨m⟩).2.nthreads ∧
    (scope_v3 cvFindContours order src contours0 hierarchy0 retr method offset
          ⟨m⟩).2.nthreads ≤ max 2 m ∧
    (2 ≤ m →
      (scope_v3 cvFindContours order src contours0 hierarchy0 retr method offset
          ⟨m⟩).2.nthreads ≤ m) := by
  rw [scope_v3_nthreads]
  unfold optimal_threads
  have hdiv : Int.tdiv m 2 = m / 2 := Int.tdiv_eq_ediv (by omega) (by omega)
  simp only [hdiv]
  split_ifs <;> omega

/-- Witness of the amended C10 at `m = 1`. -/
theorem v3_worker_count_bounds_witness :
    1 ≤ (scope_v3 (fun _ _ _ _ => .nothing) [] (blank 512 512) [] [] 0 0 ⟨0, 0⟩
          ⟨1⟩).2.nthreads ∧
    (scope_v3 (fun _ _ _ _ => .nothing) [] (blank 512 512) [] [] 0 0 ⟨0, 0⟩
          ⟨1⟩).2.nthreads ≤ max 2 1 ∧
    (2 ≤ (1 : Int) →
      (scope_v3 (fun _ _ _ _ => .nothing) [] (blank 512 512) [] [] 0 0 ⟨0, 0⟩
          ⟨1⟩).2.nthreads ≤ 1) :=
  v3_worker_count_bounds (fun _ _ _ _ => .nothing) [] (blank 512 512) [] [] 0 0
    ⟨0, 0⟩ 1 (by decide)

/-- C6 fails as stated: an empty raster of a 3-channel format is answered by v2 with empty
lists and no error. -/
theorem v2_empty_three_channel_returns :
    myFindContours_v2 (fun _ _ _ _ => .nothing) [] [] emptyMat3 [] [] 0 0 ⟨0, 0⟩
      = .returned [] [] := by
  decide

/-- C6, amended: for every non-empty raster whose sample format is not `CV_8UC1`, v2 and v3
throw the bad-argument error; they do not return. -/
theorem v2_v3_reject_wrong_format (cvFindContours : Tracer) (stripes1 stripes2 : List Range)
    (order : List Nat) (src : Mat) (contours0 : List (List Point)) (hierarchy0 : List Vec4i)
    (retr method : Int) (offset : Point) (omp : OmpState)
    (hne : src.empty = false) (hty : src.type ≠ CV_8UC1) :
    myFindContours_v2 cvFindContours stripes1 stripes2 src contours0 hierarchy0 retr method
        offset = .thrown .StsBadArg ∧
    (myFindContours_v3 cvFindContours order src contours0 hierarchy0 retr method offset omp).1
      = .thrown .StsBadArg := by
  constructor
  · simp [myFindContours_v2, hne, hty]
  · simp [myFindContours_v3, scope_v3, hne, hty]

/-- Witness of the amended C6: a 2 x 2 raster of format `CV_8UC3`. -/
theorem v2_v3_reject_wrong_format_witness :
    myFindContours_v2 (fun _ _ _ _ => .nothing) [] [] (blank3 2 2) [] []
        0 0 ⟨0, 0⟩ = .thrown .StsBadArg ∧
    (myFindContours_v3 (fun _ _ _ _ => .nothing) [] (blank3 2 2) [] []
        0 0 ⟨0, 0⟩ ⟨4⟩).1 = .thrown .StsBadArg :=
  v2_v3_reject_wrong_format (fun _ _ _ _ => .nothing) [] [] [] (blank3 2 2)
    [] [] 0 0 ⟨0, 0⟩ ⟨4⟩ (by decide) (by decide)

/-! ## The revisions compared -/

theorem siblings_links_closed : LinksClosed siblings := by
  intro a ha b hb
  have ha2 : a = 100 ∨ a = 200 := by simpa [siblings] using ha
  rcases ha2 with rfl | rfl
  · have : 200 = b := by simpa [siblings, siblingsSeq] using hb
    subst this; simp [siblings]
  · have : 100 = b := by simpa [siblings, siblingsSeq] using hb
    subst this; simp [siblings]

theorem loop_v3_first_slots (f : Forest) (hcol : ∀ a, f.color a = 0) (order : List Nat)
    (st : List (List Point) × List Vec4i) (hst : ∀ e ∈ st.2, e.e0 = 0 ∨ e.e0 = -1) :
    ∀ e ∈ (order.foldl (loopBody_v3 f) st).2, e.e0 = 0 ∨ e.e0 = -1 := by
  induction order generalizing st with
  | nil => exact hst
  | cons i order ih =>
    rw [List.foldl_cons]
    apply ih
    intro e he
    rcases List.mem_or_eq_of_mem_set he with hmem | heq
    · exact hst e hmem
    · subst heq
      cases hp : (f.slot i).h_next with
      | none => right; simp [linkColor]
      | some a => left; simp [linkColor, hcol a]

/-- On the two-sibling forest, whatever the slots of the pointer sequence read as and in
whatever order the iterations run, no hierarchy entry of v3 starts with anything but 0 or -1. -/
theorem v3_siblings_first_slots (sl : Nat → CvSeq) (order : List Nat) :
    ∃ c h, (myFindContours_v3 (fun _ _ _ _ => .found { siblings with slot := sl }) order twoDots
        [] [] 1 2 ⟨0, 0⟩ ⟨4⟩).1 = .returned c h ∧ ∀ e ∈ h, e.e0 = 0 ∨ e.e0 = -1 := by
  have e3 := v3_found (fun _ _ _ _ => .found { siblings with slot := sl }) order twoDots [] []
    1 2 ⟨0, 0⟩ ⟨4⟩ { siblings with slot := sl } (by decide) (by decide) rfl
  have h2 : ¬ ({ siblings with slot := sl } : Forest).all_contours.length = 0 := by
    simp [siblings]
  rw [if_neg h2] at e3
  refine ⟨_, _, e3, ?_⟩
  apply loop_v3_first_slots _ (fun _ => rfl)
  intro e he
  left
  have h3 : e = default := by
    have : e ∈ [(default : Vec4i), default] := he
    simpa using this
  rw [h3]
  rfl

/-- C1 at the forest of two siblings: v1 numbers the nodes and reports the sibling of node 0 as
node 1; v2 and v3 never write `color`, v2 reports node 0, and v3 differs from v1 whatever the
slots of the pointer sequence read as and in whatever order its iterations run. -/
theorem revisions_disagree_on_siblings (sl : Nat → CvSeq) (order : List Nat) :
    myFindContours_v1 (fun _ _ _ _ => .found { siblings with slot := sl }) twoDots [] [] 1 2
        ⟨0, 0⟩
      = .returned [[⟨2, 0⟩], [⟨0, 0⟩]] [⟨1, -1, -1, -1⟩, ⟨-1, 0, -1, -1⟩] ∧
    myFindContours_v2 (fun _ _ _ _ => .found { siblings with slot := sl }) [⟨0, 2⟩] [⟨0, 2⟩]
        twoDots [] [] 1 2 ⟨0, 0⟩
      = .returned [[⟨2, 0⟩], [⟨0, 0⟩]] [⟨0, -1, -1, -1⟩, ⟨-1, 0, -1, -1⟩] ∧
    (myFindContours_v3 (fun _ _ _ _ => .found { siblings with slot := sl }) order twoDots [] []
        1 2 ⟨0, 0⟩ ⟨4⟩).1
      ≠ myFindContours_v1 (fun _ _ _ _ => .found { siblings with slot := sl }) twoDots [] [] 1 2
        ⟨0, 0⟩ := by
  have h1 : myFindContours_v1 (fun _ _ _ _ => .found { siblings with slot := sl }) twoDots [] []
      1 2 ⟨0, 0⟩
      = .returned [[⟨2, 0⟩], [⟨0, 0⟩]] [⟨1, -1, -1, -1⟩, ⟨-1, 0, -1, -1⟩] := rfl
  refine ⟨h1, rfl, ?_⟩
  obtain ⟨c, h, e3, hall⟩ := v3_siblings_first_slots sl order
  rw [e3, h1]
  intro heq
  rw [Outcome.returned.injEq] at heq
  have hm : (⟨1, -1, -1, -1⟩ : Vec4i) ∈ h := by rw [heq.2]; simp
  rcases hall _ hm with h0 | h0 <;> simp at h0

/-- C2 at the forest of two siblings: the flattened list names each node once, the links stay
inside it, and the next-sibling of node 0 is at position 1; yet no hierarchy entry of v3 holds
1 in its first slot, whatever the slots of the pointer sequence read as, and `hierarchy[0]` of
v2 starts with 0. -/
theorem v2_v3_hierarchy_is_not_the_position (sl : Nat → CvSeq) (order : List Nat) :
    siblings.all_contours.Nodup ∧ LinksClosed siblings ∧
    siblings.all_contours.map (specEntry siblings)
      = [⟨1, -1, -1, -1⟩, ⟨-1, 0, -1, -1⟩] ∧
    (∃ c h, (myFindContours_v3 (fun _ _ _ _ => .found { siblings with slot := sl }) order
        twoDots [] [] 1 2 ⟨0, 0⟩ ⟨4⟩).1 = .returned c h ∧ 1 ∉ h.map Vec4i.e0) ∧
    (∃ c rest, myFindContours_v2 (fun _ _ _ _ => .found { siblings with slot := sl }) [⟨0, 2⟩]
        [⟨0, 2⟩] twoDots [] [] 1 2 ⟨0, 0⟩ = .returned c (⟨0, -1, -1, -1⟩ :: rest)) := by
  refine ⟨by decide, siblings_links_closed, by decide, ?_,
    ⟨[[⟨2, 0⟩], [⟨0, 0⟩]], [⟨-1, 0, -1, -1⟩], rfl⟩⟩
  · obtain ⟨c, h, e3, hall⟩ := v3_siblings_first_slots sl order
    refine ⟨c, h, e3, ?_⟩
    intro hmem
    obtain ⟨e, he, he1⟩ := List.mem_map.mp hmem
    rcases hall e he with h0 | h0 <;> rw [h0] at he1 <;> simp at he1

/-- C3 at the one-node forest: the node holds the point (0, 0) and v1 and v2 return it; v3
copies what the slot of the pointer sequence reads as, here nothing, whatever the nodes hold. -/
theorem v3_contour_is_not_the_node (nodes : Nat → CvSeq) :
    single.all_contours.map (fun a => (single.seq a).elems) = [[⟨0, 0⟩]] ∧
    myFindContours_v1 (fun _ _ _ _ => .found single) oneDot [] [] 1 2 ⟨0, 0⟩
      = .returned [[⟨0, 0⟩]] [⟨-1, -1, -1, -1⟩] ∧
    myFindContours_v2 (fun _ _ _ _ => .found single) [⟨0, 1⟩] [⟨0, 1⟩] oneDot [] [] 1 2 ⟨0, 0⟩
      = .returned [[⟨0, 0⟩]] [⟨-1, -1, -1, -1⟩] ∧
    (myFindContours_v3 (fun _ _ _ _ => .found single) [0] oneDot [] [] 1 2 ⟨0, 0⟩ ⟨4⟩).1
      = .returned [[]] [⟨-1, -1, -1, -1⟩] ∧
    (myFindContours_v3 (fun _ _ _ _ => .found { single with seq := nodes }) [0] oneDot [] [] 1 2
        ⟨0, 0⟩ ⟨4⟩).1
      = .returned [[]] [⟨-1, -1, -1, -1⟩] := by
  exact ⟨rfl, rfl, rfl, rfl, rfl⟩

/-- C5 at the empty raster: v1 has no emptiness test and hands the raster to the tracer; when
the tracer rejects it, the call throws. -/
theorem v1_empty_raster_throws :
    emptyMat.empty = true ∧
    myFindContours_v1 rejectEmpty emptyMat [] [] 1 2 ⟨0, 0⟩ = .thrown (.capability (-206)) ∧
    myFindContours_v2 rejectEmpty [] [] emptyMat [] [] 1 2 ⟨0, 0⟩ = .returned [] [] ∧
    (myFindContours_v3 rejectEmpty [] emptyMat [] [] 1 2 ⟨0, 0⟩ ⟨4⟩).1 = .returned [] [] := by
  decide

/-- C9 at a node without points: v3 resizes `contours` without clearing it, so the points the
caller had in `contours[0]` are returned; v1 and v2 return an empty contour. -/
theorem v3_keeps_stale_points :
    (myFindContours_v3 (fun _ _ _ _ => .found pointless) [0] oneDot [[⟨7, 7⟩]] [] 1 2 ⟨0, 0⟩
        ⟨4⟩).1 = .returned [[⟨7, 7⟩]] [⟨-1, -1, -1, -1⟩] ∧
    (myFindContours_v3 (fun _ _ _ _ => .found pointless) [0] oneDot [] [] 1 2 ⟨0, 0⟩ ⟨4⟩).1
      = .returned [[]] [⟨-1, -1, -1, -1⟩] ∧
    myFindContours_v1 (fun _ _ _ _ => .found pointless) oneDot [[⟨7, 7⟩]] [] 1 2 ⟨0, 0⟩
      = .returned [[]] [⟨-1, -1, -1, -1⟩] ∧
    myFindContours_v2 (fun _ _ _ _ => .found pointless) [⟨0, 1⟩] [⟨0, 1⟩] oneDot [[⟨7, 7⟩]] []
        1 2 ⟨0, 0⟩ = .returned [[]] [⟨-1, -1, -1, -1⟩] ∧
    (myFindContours_v3 (fun _ _ _ _ => .found pointless) [0] oneDot [[⟨7, 7⟩]] [] 1 2 ⟨0, 0⟩
        ⟨4⟩).1
      ≠ (myFindContours_v3 (fun _ _ _ _ => .found pointless) [0] oneDot [] [] 1 2 ⟨0, 0⟩
          ⟨4⟩).1 := by
  decide

/-! ## What does hold in the sibling revisions -/

/-- In v1 and v2 the result does not depend on what the output vectors held. -/
theorem v1_v2_call_scoped (cvFindContours : Tracer) (stripes1 stripes2 : List Range)
    (src : Mat) (contours0 contours1 : List (List Point)) (hierarchy0 hierarchy1 : List Vec4i)
    (retr method : Int) (offset : Point) :
    myFindContours_v1 cvFindContours src contours0 hierarchy0 retr method offset
      = myFindContours_v1 cvFindContours src contours1 hierarchy1 retr method offset ∧
    myFindContours_v2 cvFindContours stripes1 stripes2 src contours0 hierarchy0 retr method
        offset
      = myFindContours_v2 cvFindContours stripes1 stripes2 src contours1 hierarchy1 retr method
        offset := by
  constructor
  · simp [myFindContours_v1, clear]
  · simp [myFindContours_v2, clear]

/-- An empty raster is answered by v2 and v3 with empty vectors, and so is, in all three
revisions, a tracer that was called and found nothing. -/
theorem empty_or_nothing_returns_empty (cvFindContours : Tracer)
    (stripes1 stripes2 : List Range) (order : List Nat) (src : Mat)
    (contours0 : List (List Point)) (hierarchy0 : List Vec4i) (retr method : Int)
    (offset : Point) (omp : OmpState) :
    (cvFindContours src.clone retr method offset = .nothing →
      myFindContours_v1 cvFindContours src contours0 hierarchy0 retr method offset
        = .returned [] []) ∧
    (src.empty = true ∨
        (src.type = CV_8UC1 ∧ cvFindContours src.clone retr method offset = .nothing) →
      myFindContours_v2 cvFindContours stripes1 stripes2 src contours0 hierarchy0 retr method
        offset = .returned [] [] ∧
      (myFindContours_v3 cvFindContours order src contours0 hierarchy0 retr method offset
        omp).1 = .returned [] []) := by
  constructor
  · intro hf
    simp [myFindContours_v1, hf]
  · intro h
    by_cases he : src.empty = true
    · simp [myFindContours_v2, myFindContours_v3, scope_v3, he]
    · rcases h with h | ⟨hty, hf⟩
      · exact absurd h he
      · simp [myFindContours_v2, myFindContours_v3, scope_v3, he, hty, hf, clear]

/-! ## The general results at the two-sibling forest -/

/-- The v1 result at the two-sibling forest, stale output vectors included. -/
theorem v1_returns_nodes_and_positions_witness :
    myFindContours_v1 (fun _ _ _ _ => .found siblings) twoDots [[⟨9, 9⟩]] [⟨5, 5, 5, 5⟩] 1 2
        ⟨0, 0⟩
      = .returned (siblings.all_contours.map (fun a => (siblings.seq a).elems))
          (siblings.all_contours.map (specEntry siblings)) :=
  v1_returns_nodes_and_positions (fun _ _ _ _ => .found siblings) twoDots [[⟨9, 9⟩]]
    [⟨5, 5, 5, 5⟩] 1 2 ⟨0, 0⟩ siblings rfl (by decide) siblings_links_closed

/-- The v2 result at the two-sibling forest, with the index range cut into two stripes that
land in reverse order. -/
theorem v2_returns_nodes_witness :
    myFindContours_v2 (fun _ _ _ _ => .found siblings) [⟨1, 2⟩, ⟨0, 1⟩] [⟨0, 2⟩] twoDots
        [[⟨9, 9⟩]] [⟨5, 5, 5, 5⟩] 1 2 ⟨0, 0⟩
      = .returned (siblings.all_contours.map (fun a => (siblings.seq a).elems))
          (siblings.all_contours.map (fun a =>
            (⟨linkColor siblings.elem_color (siblings.seq a).h_next,
              linkColor siblings.elem_color (siblings.seq a).h_prev,
              linkColor siblings.elem_color (siblings.seq a).v_next,
              linkColor siblings.elem_color (siblings.seq a).v_prev⟩ : Vec4i))) :=
  v2_returns_nodes (fun _ _ _ _ => .found siblings) [⟨1, 2⟩, ⟨0, 1⟩] [⟨0, 2⟩] twoDots
    [[⟨9, 9⟩]] [⟨5, 5, 5, 5⟩] 1 2 ⟨0, 0⟩ siblings (by decide) (by decide) rfl (by decide)
    (by decide)

/-- The v3 result at the two-sibling forest, iterations run in reverse order. -/
theorem v3_returns_slots_witness :
    (myFindContours_v3 (fun _ _ _ _ => .found siblings) [1, 0] twoDots [[⟨9, 9⟩]]
        [⟨5, 5, 5, 5⟩] 1 2 ⟨0, 0⟩ ⟨4⟩).1
      = .returned
          ((List.range siblings.all_contours.length).map (fun i =>
            if (siblings.slot i).elems = [] then
              (resize siblings.all_contours.length [[⟨9, 9⟩]] []).getD i []
            else (siblings.slot i).elems))
          ((List.range siblings.all_contours.length).map (fun i =>
            (⟨linkColor siblings.color (siblings.slot i).h_next,
              linkColor siblings.color (siblings.slot i).h_prev,
              linkColor siblings.color (siblings.slot i).v_next,
              linkColor siblings.color (siblings.slot i).v_prev⟩ : Vec4i))) :=
  v3_returns_slots (fun _ _ _ _ => .found siblings) [1, 0] twoDots [[⟨9, 9⟩]] [⟨5, 5, 5, 5⟩]
    1 2 ⟨0, 0⟩ ⟨4⟩ siblings (by decide) (by decide) rfl (by decide) (by decide)

/-- Had the slots of the pointer sequence read as the nodes they point to, v3 called with empty
output vectors would return the point sequences of the flattened nodes, in order, for every
order of its iterations; the hierarchy would still hold the `color` fields as the tracer left
them. -/
theorem v3_returns_nodes_of_slots (cvFindContours : Tracer) (order : List Nat) (src : Mat)
    (retr method : Int) (offset : Point) (omp : OmpState) (f : Forest)
    (hne : src.empty = false) (hty : src.type = CV_8UC1)
    (hf : cvFindContours src.clone retr method offset = .found f)
    (hord : IsOrder f.all_contours.length order)
    (hslot : ∀ i, f.slot i = f.seq (f.all_contours.getD i 0)) :
    (myFindContours_v3 cvFindContours order src [] [] retr method offset omp).1
      = .returned (f.all_contours.map (fun a => (f.seq a).elems))
          (f.all_contours.map (fun a =>
            (⟨linkColor f.color (f.seq a).h_next, linkColor f.color (f.seq a).h_prev,
              linkColor f.color (f.seq a).v_next, linkColor f.color (f.seq a).v_prev⟩ :
              Vec4i))) := by
  by_cases hpos : f.all_contours.length = 0
  · have hnil : f.all_contours = [] := List.length_eq_zero.mp hpos
    rw [v3_found _ _ _ _ _ _ _ _ _ f hne hty hf, if_pos hpos, hnil]
    rfl
  · rw [v3_returns_slots _ _ _ _ _ _ _ _ _ f hne hty hf hpos hord]
    congr 1
    · apply List.ext_getElem?
      intro k
      rw [getElem?_map_range, List.getElem?_map]
      by_cases hk : k < f.all_contours.length
      · simp only [hk, if_true, hslot, List.getD_eq_getElem?_getD,
          List.getElem?_eq_getElem hk, Option.getD_some, Option.map_some', resize_nil,
          List.getElem?_replicate]
        by_cases he : (f.seq f.all_contours[k]).elems = []
        · simp [he]
        · simp [he]
      · have hk2 : f.all_contours.length ≤ k := by omega
        simp [hk, List.getElem?_eq_none hk2]
    · apply List.ext_getElem?
      intro k
      rw [getElem?_map_range, List.getElem?_map]
      by_cases hk : k < f.all_contours.length
      · simp only [hk, if_true, hslot, List.getD_eq_getElem?_getD,
          List.getElem?_eq_getElem hk, Option.getD_some, Option.map_some']
      · have hk2 : f.all_contours.length ≤ k := by omega
        simp [hk, List.getElem?_eq_none hk2]

/-- The previous result at the two-sibling forest, whose slots are set to read as the nodes. -/
theorem v3_returns_nodes_of_slots_witness :
    (myFindContours_v3 (fun _ _ _ _ => .found siblings) [1, 0] twoDots [] [] 1 2 ⟨0, 0⟩ ⟨4⟩).1
      = .returned (siblings.all_contours.map (fun a => (siblings.seq a).elems))
          (siblings.all_contours.map (fun a =>
            (⟨linkColor siblings.color (siblings.seq a).h_next,
              linkColor siblings.color (siblings.seq a).h_prev,
              linkColor siblings.color (siblings.seq a).v_next,
              linkColor siblings.color (siblings.seq a).v_prev⟩ : Vec4i))) :=
  v3_returns_nodes_of_slots (fun _ _ _ _ => .found siblings) [1, 0] twoDots 1 2 ⟨0, 0⟩ ⟨4⟩
    siblings (by decide) (by decide) rfl (by decide) (fun _ => rfl)

end OpencvToolLib
